import Mathlib

set_option autoImplicit false

/-!
Shallow embedding of the core components of the lacymorrow/crush repository
(Go sources under internal/auth, internal/llm/agent, internal/shell and the
application root), together with theorems checking the natural-language
specification against this embedding.

Conventions used throughout:
  - Go byte slices are List Nat (each element < 256 where it matters);
  - machine integers are Int or Nat; millisecond epochs are Int;
  - fallible Go functions returning (T, error) become Except String T or a
    result structure carrying an Option String error field;
  - external effects (HTTP endpoints, the crypto hash, random bytes, the MCP
    client library) are parameters of the embedding, since their code is not
    part of this repository; everything the repository itself computes is
    translated directly from the source.
-/

namespace Crush

/-- Models Go strings.Contains scanning: true when the pattern list occurs as a
contiguous sub-list starting at some position of the second list. -/
def containsFrom (pat : List Char) : List Char → Bool
  | [] => pat.isEmpty
  | c :: cs => pat.isPrefixOf (c :: cs) || containsFrom pat cs

/-- Models Go strings.Contains on strings. -/
def strContains (s pat : String) : Bool :=
  containsFrom pat.data s.data

/-- Models Go strings.ToLower (ASCII range, which is all the source uses it on). -/
def strToLower (s : String) : String :=
  ⟨s.data.map Char.toLower⟩

/-- White space characters Go strings.TrimSpace removes (ASCII range). -/
def isSpaceChar (c : Char) : Bool :=
  c == ' ' || c == '\t' || c == '\n' || c == '\r' || c == '\x0b' || c == '\x0c'

/-- Models Go strings.TrimSpace: drop white space from both ends. -/
def strTrim (s : String) : String :=
  ⟨((s.data.dropWhile isSpaceChar).reverse.dropWhile isSpaceChar).reverse⟩

/-- Splitting a character list at every occurrence of a separator character. -/
def splitOnChar (sep : Char) : List Char → List (List Char)
  | [] => [[]]
  | c :: cs =>
    let r := splitOnChar sep cs
    if c == sep then [] :: r
    else
      match r with
      | [] => [[c]]
      | h :: t => (c :: h) :: t

/-- Models Go strings.Split with a one-character separator. -/
def strSplitChar (s : String) (sep : Char) : List String :=
  (splitOnChar sep s.data).map (fun l => ⟨l⟩)

namespace auth

/-- OauthInfo stores OAuth tokens for a provider (internal/auth/auth.go). -/
structure OauthInfo where
  type : String
  refresh : String
  access : String
  expires : Int
  deriving DecidableEq, Repr

/-- Abstraction of the on-disk auth.json file contents as seen by readAll:
either the file is absent, its bytes fail JSON unmarshalling, reading fails
with a non-not-exist error, or it decodes to a provider map (modelled as an
association list, since Go map iteration order is irrelevant here). -/
inductive AuthFile where
  | missing
  | corrupt
  | unreadable (e : String)
  | valid (m : List (String × OauthInfo))
  deriving DecidableEq, Repr

/-- Translation of readAll: a missing file and a file with invalid JSON both
yield an empty map with a nil error; other read errors propagate. -/
def readAll : AuthFile → Except String (List (String × OauthInfo))
  | .missing => .ok []
  | .corrupt => .ok []
  | .unreadable e => .error e
  | .valid m => .ok m

/-- Translation of Get: read all stored tokens and look up the provider. -/
def Get (providerID : String) (f : AuthFile) : Except String (Option OauthInfo) :=
  match readAll f with
  | .error e => .error e
  | .ok m => .ok (m.lookup providerID)

/-- Go map assignment m[k] = v on the association-list model. -/
def upsert (m : List (String × OauthInfo)) (k : String) (v : OauthInfo) :
    List (String × OauthInfo) :=
  m.filter (fun kv => !(kv.1 == k)) ++ [(k, v)]

/-- Translation of Set: readAll, assign, writeAll. The file-system write is
modelled as always succeeding; marshalling of this data cannot fail. -/
def Set (providerID : String) (info : OauthInfo) (f : AuthFile) :
    Except String AuthFile :=
  match readAll f with
  | .error e => .error e
  | .ok m => .ok (.valid (upsert m providerID info))

/-- Translation of Remove: readAll, delete, writeAll. -/
def Remove (providerID : String) (f : AuthFile) : Except String AuthFile :=
  match readAll f with
  | .error e => .error e
  | .ok m => .ok (.valid (m.filter (fun kv => !(kv.1 == providerID))))

/-- Alphabet of base64.RawURLEncoding. -/
def base64UrlAlphabet : List Char :=
  "ABCDEFGHIJKLMNOPQRSTUVWXYZabcdefghijklmnopqrstuvwxyz0123456789-_".data

/-- Character at a given index of the base64url alphabet. -/
def b64Char (n : Nat) : Char :=
  base64UrlAlphabet.getD n 'A'

/-- base64.RawURLEncoding.EncodeToString on byte lists: groups of three bytes
become four characters; a final group of two bytes becomes three characters and
a final single byte becomes two, with no padding. -/
def base64UrlEncodeChars : List Nat → List Char
  | b1 :: b2 :: b3 :: rest =>
      b64Char (b1 / 4) :: b64Char (b1 % 4 * 16 + b2 / 16) ::
        b64Char (b2 % 16 * 4 + b3 / 64) :: b64Char (b3 % 64) ::
        base64UrlEncodeChars rest
  | [b1, b2] => [b64Char (b1 / 4), b64Char (b1 % 4 * 16 + b2 / 16), b64Char (b2 % 16 * 4)]
  | [b1] => [b64Char (b1 / 4), b64Char (b1 % 4 * 16)]
  | [] => []

/-- base64.RawURLEncoding.EncodeToString producing a String. -/
def base64UrlEncode (bytes : List Nat) : String :=
  ⟨base64UrlEncodeChars bytes⟩

/-- Bytes of an ASCII string, as Go []byte(s) for the strings this code builds. -/
def strBytes (s : String) : List Nat :=
  s.data.map Char.toNat

/-- PKCE verifier and challenge pair (internal/auth/auth.go). -/
structure pkce where
  Verifier : String
  Challenge : String
  deriving DecidableEq, Repr

/-- Translation of generatePKCE. The 64 random bytes produced by rand.Read and
the crypto/sha256 digest function are parameters, since both live outside this
repository; the verifier and challenge wiring is translated from the source:
the verifier is the base64url-no-padding encoding of the random bytes and the
challenge is the base64url-no-padding encoding of the digest of the verifier
string bytes. -/
def generatePKCE (sha256 : List Nat → List Nat) (randBytes : List Nat) : pkce :=
  let verifier := base64UrlEncode randBytes
  let challenge := base64UrlEncode (sha256 (strBytes verifier))
  { Verifier := verifier, Challenge := challenge }

/-- Client id constant from the source. -/
def anthropicClientID : String := "9d1c250a-e61b-44d9-88ed-5944d1962f5e"

/-- Result of AuthorizeURL: the URL components (query as key-value pairs, the
form url.Values holds them in before percent-encoding) and the returned
verifier. -/
structure AuthorizeURLResult where
  scheme : String
  host : String
  path : String
  query : List (String × String)
  verifier : String
  deriving DecidableEq, Repr

/-- Translation of AuthorizeURL: build the authorization URL for claude.ai or
console.anthropic.com with the PKCE challenge, method S256 and the verifier as
the state parameter, returning the verifier alongside. -/
def AuthorizeURL (sha256 : List Nat → List Nat) (randBytes : List Nat)
    (mode : String) : AuthorizeURLResult :=
  let pk := generatePKCE sha256 randBytes
  let domain := if mode == "console" then "console.anthropic.com" else "claude.ai"
  { scheme := "https"
    host := domain
    path := "/oauth/authorize"
    query := [("code", "true"),
      ("client_id", anthropicClientID),
      ("response_type", "code"),
      ("redirect_uri", "https://console.anthropic.com/oauth/code/callback"),
      ("scope", "org:create_api_key user:profile user:inference"),
      ("code_challenge", pk.Challenge),
      ("code_challenge_method", "S256"),
      ("state", pk.Verifier)]
    verifier := pk.Verifier }

/-- Token endpoint JSON response fields the source decodes. -/
structure tokenResponse where
  RefreshToken : String
  AccessToken : String
  ExpiresIn : Int
  deriving DecidableEq, Repr

/-- Request body fields ExchangeCode sends to the token endpoint. -/
structure TokenRequest where
  code : String
  state : String
  verifier : String
  deriving DecidableEq, Repr

/-- Translation of ExchangeCode: split the pasted string on the hash character,
reject fewer than two parts, POST to the token endpoint (a parameter, as the
HTTP stack is outside the repository) and materialize an OauthInfo whose
absolute expiry is now plus expires-in seconds, in milliseconds. -/
def ExchangeCode (endpoint : TokenRequest → Except String tokenResponse)
    (nowMs : Int) (codeWithState : String) (verifier : String) :
    Except String OauthInfo :=
  match strSplitChar codeWithState '#' with
  | p0 :: p1 :: _ =>
    match endpoint { code := p0, state := p1, verifier := verifier } with
    | .error e => .error e
    | .ok tr =>
        .ok { type := "oauth", refresh := tr.RefreshToken, access := tr.AccessToken,
              expires := nowMs + tr.ExpiresIn * 1000 }
  | _ => .error "invalid code format"

/-- Result of AccessToken: the returned token string, the returned error, and
the stored record after the call (the record Set persisted, when a refresh
happened). -/
structure AccessTokenResult where
  token : String
  err : Option String
  stored : Option OauthInfo
  deriving DecidableEq, Repr

/-- Translation of AccessToken: return the stored access token while its expiry
is strictly in the future, otherwise refresh through the token endpoint (a
parameter) and persist a record whose expiry is now plus expires-in seconds. -/
def AccessToken (refreshEndpoint : String → Except String tokenResponse)
    (nowMs : Int) (getResult : Except String (Option OauthInfo)) :
    AccessTokenResult :=
  match getResult with
  | .error e => { token := "", err := some e, stored := none }
  | .ok none => { token := "", err := none, stored := none }
  | .ok (some info) =>
    if info.type ≠ "oauth" then { token := "", err := none, stored := some info }
    else if info.access ≠ "" ∧ nowMs < info.expires then
      { token := info.access, err := none, stored := some info }
    else
      match refreshEndpoint info.refresh with
      | .error e => { token := "", err := some e, stored := some info }
      | .ok tr =>
          let updated : OauthInfo :=
            { type := "oauth", refresh := tr.RefreshToken, access := tr.AccessToken,
              expires := nowMs + tr.ExpiresIn * 1000 }
          { token := updated.access, err := none, stored := some updated }

end auth

namespace agent

/-- Translation of isTransientTransportError on the error text (the nil-error
case does not arise in the model because call outcomes are Except values whose
error string exists only on failure). -/
def isTransientTransportError (e : String) : Bool :=
  let l := strToLower e
  strContains l "broken pipe" || strContains l "connection reset" ||
    strContains l "eof" || strContains l "use of closed network connection" ||
    strContains l "transport error"

/-- Modelled from the spec wording, for refinement comparison only: the list of
transient-transport substrings the spec and the claim give (broken pipe,
connection reset, EOF, closed network connection, transport error). -/
def specTransientPatterns : List String :=
  ["broken pipe", "connection reset", "eof", "closed network connection",
   "transport error"]

/-- Modelled from the spec wording, for refinement comparison only: an error is
transient when its lower-cased text contains one of the spec substrings. -/
def claimTransientTransportError (e : String) : Bool :=
  specTransientPatterns.any (fun p => strContains (strToLower e) p)

/-- Tool responses the source builds through tools.NewTextErrorResponse and
tools.NewTextResponse. -/
inductive ToolResponse where
  | textError (s : String)
  | text (s : String)
  deriving DecidableEq, Repr

/-- Opaque handle standing for a live mcp client.Client value. -/
abbrev Client := Nat

/-- Normalization at the top of runTool: empty or whitespace-only input becomes
the empty JSON object before unmarshalling. -/
def normalizeInput (input : String) : String :=
  if strTrim input == "" then "\x7b\x7d" else input

/-- Observable outcome of one runTool invocation: the response, the returned Go
error, how many restarts the cold-cache path performed, how many restarts a
transient call error triggered, and how many tool-call attempts were made. -/
structure RunToolResult where
  resp : ToolResponse
  err : Option String
  lazyRestarts : Nat
  retryRestarts : Nat
  calls : Nat
  deriving DecidableEq, Repr

/-- Core of runTool once a client is at hand, translated from the call site:
invoke the tool; on a transient transport error perform one restart (the next
entry of the restart oracle) and, when the restart succeeds, one retry; when
the restart fails, compose the original error with the restart failure. The
lazy argument is the number of restarts the cold-cache path already used and
indexes the restart oracle. -/
def runToolWithClient (restarts : Nat → Except String Client)
    (call : Client → Except String String) (lazy : Nat) (c : Client) :
    RunToolResult :=
  match call c with
  | .ok out =>
      { resp := .text out, err := none, lazyRestarts := lazy,
        retryRestarts := 0, calls := 1 }
  | .error e =>
    if isTransientTransportError e then
      match restarts lazy with
      | .ok c2 =>
        match call c2 with
        | .ok out2 =>
            { resp := .text out2, err := none, lazyRestarts := lazy,
              retryRestarts := 1, calls := 2 }
        | .error e2 =>
            { resp := .textError e2, err := none, lazyRestarts := lazy,
              retryRestarts := 1, calls := 2 }
      | .error re =>
          { resp := .textError (e ++ "; restart failed: " ++ re), err := none,
            lazyRestarts := lazy, retryRestarts := 1, calls := 1 }
    else
      { resp := .textError e, err := none, lazyRestarts := lazy,
        retryRestarts := 0, calls := 1 }

/-- Translation of runTool. Externals are parameters: parse stands for
json.Unmarshal of the argument object, avail for the mcpClients table lookup,
restarts for successive restartMCPClient outcomes, call for CallTool on a given
client handle. Every failure is encoded as a text error response with a nil Go
error. -/
def runTool (parse : String → Except String Unit) (avail : Option Client)
    (restarts : Nat → Except String Client)
    (call : Client → Except String String) (name : String) (input : String) :
    RunToolResult :=
  match parse (normalizeInput input) with
  | .error pe =>
      { resp := .textError ("error parsing parameters: " ++ pe), err := none,
        lazyRestarts := 0, retryRestarts := 0, calls := 0 }
  | .ok _ =>
    match avail with
    | some c => runToolWithClient restarts call 0 c
    | none =>
      match restarts 0 with
      | .error e =>
          { resp := .textError ("mcp \x27" ++ name ++ "\x27 not available: " ++ e),
            err := none, lazyRestarts := 1, retryRestarts := 0, calls := 0 }
      | .ok c => runToolWithClient restarts call 1 c

end agent

namespace shell

/-- Capacity in chunks of the consumer-visible output channel: NewPTYShell
creates the channel with 64 slots. -/
def outputChanCap : Nat := 64

/-- Size of the read buffer in pumpOutput; every chunk sent holds at most this
many bytes. -/
def ptyReadBufSize : Nat := 4096

/-- One send of a chunk on the bounded output channel: with a free slot the
chunk is appended at the tail; with a full channel the producer blocks, so the
chunk is neither enqueued nor dropped; the Bool records whether the producer
blocked. -/
def chanSend (q : List (List Nat)) (c : List Nat) : List (List Nat) × Bool :=
  if q.length < outputChanCap then (q ++ [c], false) else (q, true)

/-- Total unconsumed bytes sitting in the output channel. -/
def totalBytes (q : List (List Nat)) : Nat :=
  (q.map List.length).sum

/-- Fields of PTYShell that Write consults, plus whether the child exited. -/
structure PTYShell where
  started : Bool
  ptmxOpen : Bool
  childExited : Bool
  deriving DecidableEq, Repr

/-- State right after NewPTYShell: started is true and the PTY master is live. -/
def newPTYShell : PTYShell :=
  { started := true, ptmxOpen := true, childExited := false }

/-- Lifecycle events that can mutate those fields. -/
inductive ShellEv where
  | childExit
  | close
  deriving DecidableEq, Repr

/-- Effect of each lifecycle event, translated from the source: the wait
goroutine only publishes the exit error to doneCh and mutates no field Write
consults; Close clears started and the PTY handle. -/
def shellStep (s : PTYShell) : ShellEv → PTYShell
  | .childExit => { s with childExited := true }
  | .close => { s with started := false, ptmxOpen := false }

/-- Shell state after a sequence of lifecycle events from creation. -/
def shellRun (evs : List ShellEv) : PTYShell :=
  evs.foldl shellStep newPTYShell

/-- What Write does: return io.ErrClosedPipe without touching the PTY, or
write the bytes to the PTY master. -/
inductive WriteOutcome where
  | errClosedPipe
  | ptmxWrite
  deriving DecidableEq, Repr

/-- Translation of the PTYShell.Write gate: the already-closed error is
returned exactly when started is false or the PTY handle is nil. -/
def write (s : PTYShell) : WriteOutcome :=
  if !s.started || !s.ptmxOpen then .errClosedPipe else .ptmxWrite

end shell

namespace terminal

/-- Trim threshold of the consumer-visible terminal buffer: the
TerminalOutputMsg case of Terminal.Update trims when the accumulated length
exceeds this many bytes (about one megabyte). -/
def maxBufferBytes : Nat := 1000000

/-- Translation of the TerminalOutputMsg case of Terminal.Update: when the
accumulated buffer exceeds the bound, the oldest half (floor of the length
over two) is discarded by keeping the suffix of the current contents, then the
new chunk is appended. -/
def terminalUpdate (buf data : List Nat) : List Nat :=
  (if maxBufferBytes < buf.length then buf.drop (buf.length / 2) else buf) ++ data

/-- Consumer-visible buffer contents after a sequence of PTY output messages,
starting from the empty buffer of a fresh Terminal. -/
def terminalRun (chunks : List (List Nat)) : List Nat :=
  chunks.foldl terminalUpdate []

end terminal

namespace app

/-- Per-subscriber send bound, in milliseconds (subscriberSendTimeout is 2 *
time.Second in the source). -/
def subscriberSendTimeout : Nat := 2000

/-- Outcome of the bounded send select for one event: the UI channel accepted
the event within the bound, the timer fired first, or the context was
cancelled first. -/
inductive SendOutcome where
  | delivered
  | timedOut
  | cancelled
  deriving DecidableEq, Repr

/-- Observable actions of one subscriber goroutine: an event forwarded to the
UI channel, or a drop warning logged with the topic name. -/
inductive SubAction (Ev : Type) where
  | sent (e : Ev)
  | dropWarn (topic : String)
  deriving DecidableEq, Repr

/-- Translation of the forwarding loop of setupSubscriber: each incoming event
is paired with the outcome of its bounded send (an oracle standing for the
select statement); a delivered event is forwarded, a timed-out send logs one
warning naming the topic and drops only that event, and the loop then
continues with the next event; a context cancellation stops the loop. -/
def setupSubscriberRun {Ev : Type} (topic : String) :
    List (Ev × SendOutcome) → List (SubAction Ev)
  | [] => []
  | (e, .delivered) :: rest => .sent e :: setupSubscriberRun topic rest
  | (_, .timedOut) :: rest => .dropWarn topic :: setupSubscriberRun topic rest
  | (_, .cancelled) :: _ => []

end app

/-! Helper lemmas shared by the claim theorems. -/

/-- Every path of the call/restart/retry core returns a nil Go error. -/
theorem runToolWithClient_err_none (restarts : Nat → Except String agent.Client)
    (call : agent.Client → Except String String) (lazy : Nat) (c : agent.Client) :
    (agent.runToolWithClient restarts call lazy c).err = none := by
  unfold agent.runToolWithClient
  cases call c with
  | ok out => rfl
  | error e =>
    dsimp only
    split
    · cases restarts lazy with
      | ok c2 =>
        dsimp only
        cases call c2 with
        | ok out2 => rfl
        | error e2 => rfl
      | error re => rfl
    · rfl

/-- The call/restart/retry core performs at most one transient-triggered
restart. -/
theorem runToolWithClient_retry_le_one (restarts : Nat → Except String agent.Client)
    (call : agent.Client → Except String String) (lazy : Nat) (c : agent.Client) :
    (agent.runToolWithClient restarts call lazy c).retryRestarts ≤ 1 := by
  unfold agent.runToolWithClient
  cases call c with
  | ok out => exact Nat.zero_le _
  | error e =>
    dsimp only
    split
    · cases restarts lazy with
      | ok c2 =>
        dsimp only
        cases call c2 with
        | ok out2 => exact Nat.le_refl _
        | error e2 => exact Nat.le_refl _
      | error re => exact Nat.le_refl _
    · exact Nat.zero_le _

/-- The whole runTool performs at most one transient-triggered restart. -/
theorem runTool_retry_le_one (parse : String → Except String Unit)
    (avail : Option agent.Client) (restarts : Nat → Except String agent.Client)
    (call : agent.Client → Except String String) (name input : String) :
    (agent.runTool parse avail restarts call name input).retryRestarts ≤ 1 := by
  unfold agent.runTool
  cases parse (agent.normalizeInput input) with
  | error pe => exact Nat.zero_le _
  | ok u =>
    dsimp only
    cases avail with
    | some c => exact runToolWithClient_retry_le_one ..
    | none =>
      cases restarts 0 with
      | error e => exact Nat.zero_le _
      | ok c => exact runToolWithClient_retry_le_one ..

/-! Theorems settling the claims. -/

/-- C9: runTool never returns a non-nil Go error: parse failures, an
unavailable client whose lazy restart fails, and tool invocation errors are
all encoded as a text error ToolResponse paired with a nil error; moreover,
empty or whitespace-only input is first normalized to the empty JSON object,
so such an input behaves exactly like the literal two-character object. -/
theorem c9_runTool_never_errors (parse : String → Except String Unit)
    (avail : Option agent.Client) (restarts : Nat → Except String agent.Client)
    (call : agent.Client → Except String String) (name input : String) :
    (agent.runTool parse avail restarts call name input).err = none ∧
    (strTrim input = "" →
      agent.runTool parse avail restarts call name input =
        agent.runTool parse avail restarts call name "\x7b\x7d") := by
  constructor
  · unfold agent.runTool
    cases parse (agent.normalizeInput input) with
    | error pe => rfl
    | ok u =>
      dsimp only
      cases avail with
      | some c => exact runToolWithClient_err_none ..
      | none =>
        cases restarts 0 with
        | error e => rfl
        | ok c => exact runToolWithClient_err_none ..
  · intro h
    have hn : agent.normalizeInput input = "\x7b\x7d" := by
      simp [agent.normalizeInput, h]
    have hn2 : agent.normalizeInput "\x7b\x7d" = "\x7b\x7d" := by
      simp [agent.normalizeInput]
    unfold agent.runTool
    rw [hn, hn2]

/-- C9 witness: a whitespace-only input on a concrete configuration yields a
nil error and coincides with running on the literal empty JSON object. -/
theorem c9_witness :
    (agent.runTool (fun _ => .ok ()) (some 0) (fun _ => .ok 1)
        (fun _ => .ok "out") "srv" "  ").err = none ∧
    (strTrim "  " = "" →
      agent.runTool (fun _ => .ok ()) (some 0) (fun _ => .ok 1)
          (fun _ => .ok "out") "srv" "  " =
        agent.runTool (fun _ => .ok ()) (some 0) (fun _ => .ok 1)
          (fun _ => .ok "out") "srv" "\x7b\x7d") :=
  c9_runTool_never_errors (fun _ => .ok ()) (some 0) (fun _ => .ok 1)
    (fun _ => .ok "out") "srv" "  "

/-- C10: a corrupt (invalid JSON) on-disk token store is read as an empty map
with a nil error, Get reports no stored token for every provider without
signalling corruption, and a subsequent Set or Remove rewrites the file with
only the new content, silently discarding every previously stored provider
token. -/
theorem c10_corrupt_store_resets :
    auth.readAll .corrupt = .ok [] ∧
    (∀ p, auth.Get p .corrupt = .ok none) ∧
    (∀ p i, auth.Set p i .corrupt = .ok (.valid [(p, i)])) ∧
    (∀ p, auth.Remove p .corrupt = .ok (.valid [])) :=
  ⟨rfl, fun _ => rfl, fun _ _ => rfl, fun _ => rfl⟩

/-- C1 counterexample: the claim says an error whose lower-cased text contains
the substring given in the spec list as closed network connection triggers
exactly one restart-plus-retry; the code matches the longer substring use of
closed network connection, so the error text consisting exactly of the spec
substring triggers no restart and no retry at all. -/
theorem c1_counterexample :
    agent.claimTransientTransportError "closed network connection" = true ∧
    agent.isTransientTransportError "closed network connection" = false ∧
    (agent.runTool (fun _ => .ok ()) (some 0) (fun _ => .ok 1)
        (fun _ => .error "closed network connection") "srv" "x").retryRestarts = 0 ∧
    (agent.runTool (fun _ => .ok ()) (some 0) (fun _ => .ok 1)
        (fun _ => .error "closed network connection") "srv" "x").calls = 1 := by
  decide

/-- C1 amended: with the transient-transport substring list actually used by
the code (broken pipe, connection reset, eof, use of closed network
connection, transport error), a tool invocation failing with a transient
error triggers exactly one restart-plus-retry and never more (at most two
tool-call attempts overall, and at most one transient-triggered restart on
every possible input); when the restart itself fails, the response carries
the composed error referencing both the original error and the restart
failure. -/
theorem c1_transient_exactly_one_restart (parse : String → Except String Unit)
    (avail : Option agent.Client) (restarts : Nat → Except String agent.Client)
    (call : agent.Client → Except String String) (name input : String)
    (c : agent.Client) (e : String)
    (hp : parse (agent.normalizeInput input) = .ok ())
    (ha : avail = some c)
    (hc : call c = .error e)
    (ht : agent.isTransientTransportError e = true) :
    (agent.runTool parse avail restarts call name input).retryRestarts = 1 ∧
    (agent.runTool parse avail restarts call name input).calls ≤ 2 ∧
    (∀ re, restarts 0 = .error re →
      (agent.runTool parse avail restarts call name input).resp =
        .textError (e ++ "; restart failed: " ++ re)) ∧
    (∀ parse2 avail2 restarts2 call2 name2 input2,
      (agent.runTool parse2 avail2 restarts2 call2 name2 input2).retryRestarts ≤ 1) := by
  subst ha
  unfold agent.runTool
  rw [hp]
  dsimp only
  unfold agent.runToolWithClient
  rw [hc]
  dsimp only
  rw [if_pos ht]
  refine ⟨?_, ?_, ?_, ?_⟩
  · cases restarts 0 with
    | ok c2 =>
      dsimp only
      cases call c2 with
      | ok out2 => rfl
      | error e2 => rfl
    | error re => rfl
  · cases restarts 0 with
    | ok c2 =>
      dsimp only
      cases call c2 with
      | ok out2 => exact Nat.le_refl _
      | error e2 => exact Nat.le_refl _
    | error re => exact Nat.le_succ _
  · intro re hre
    rw [hre]
  · intro parse2 avail2 restarts2 call2 name2 input2
    exact runTool_retry_le_one ..

/-- Length of the base64url-no-padding encoding: four characters per full
three-byte group, two or three characters for a trailing group of one or two
bytes. -/
theorem base64UrlEncodeChars_length : ∀ bs : List Nat,
    (auth.base64UrlEncodeChars bs).length =
      4 * (bs.length / 3) + (3 * (bs.length % 3) + 1) / 2
  | [] => by simp [auth.base64UrlEncodeChars]
  | [b1] => by simp [auth.base64UrlEncodeChars]
  | [b1, b2] => by simp [auth.base64UrlEncodeChars]
  | b1 :: b2 :: b3 :: rest => by
    have ih := base64UrlEncodeChars_length rest
    simp [auth.base64UrlEncodeChars, ih]
    omega

/-- C2 counterexample: with a stored expired oauth record and a token endpoint
answering with expires-in zero, AccessToken successfully returns the new
non-empty access token while the recorded absolute expiry equals the current
time, hence is not strictly greater than it. -/
theorem c2_counterexample :
    auth.AccessToken (fun _ => .ok { RefreshToken := "r2", AccessToken := "a2", ExpiresIn := 0 })
        1000 (.ok (some { type := "oauth", refresh := "r", access := "", expires := 0 })) =
      { token := "a2", err := none,
        stored := some { type := "oauth", refresh := "r2", access := "a2", expires := 1000 } } ∧
    ¬ ((1000 : Int) < 1000) := by
  decide

/-- C2 amended: provided every token-endpoint response carries a strictly
positive expires-in, every call of AccessToken that returns a non-empty token
string corresponds to a stored record holding exactly that access token whose
absolute expiry is strictly greater than the current time, both on the
stored-token fast path and on the refresh path where the expiry is now plus
the expires-in value. -/
theorem c2_token_expiry_future (refreshEndpoint : String → Except String auth.tokenResponse)
    (nowMs : Int) (getResult : Except String (Option auth.OauthInfo))
    (hpos : ∀ r tr, refreshEndpoint r = .ok tr → 0 < tr.ExpiresIn)
    (hne : (auth.AccessToken refreshEndpoint nowMs getResult).token ≠ "") :
    ∃ info, (auth.AccessToken refreshEndpoint nowMs getResult).stored = some info ∧
      info.access = (auth.AccessToken refreshEndpoint nowMs getResult).token ∧
      nowMs < info.expires := by
  unfold auth.AccessToken at *
  cases getResult with
  | error e => exact absurd rfl hne
  | ok o =>
    cases o with
    | none => exact absurd rfl hne
    | some info =>
      dsimp only at *
      by_cases h1 : info.type ≠ "oauth"
      · rw [if_pos h1] at hne ⊢
        exact absurd rfl hne
      · rw [if_neg h1] at hne ⊢
        by_cases h2 : info.access ≠ "" ∧ nowMs < info.expires
        · rw [if_pos h2] at hne ⊢
          exact ⟨info, rfl, rfl, h2.2⟩
        · rw [if_neg h2] at hne ⊢
          cases hr : refreshEndpoint info.refresh with
          | error e =>
            rw [hr] at hne
            exact absurd rfl hne
          | ok tr =>
            refine ⟨_, rfl, rfl, ?_⟩
            have hp := hpos info.refresh tr hr
            have h1000 : (0 : Int) < tr.ExpiresIn * 1000 := mul_pos hp (by norm_num)
            show nowMs < nowMs + tr.ExpiresIn * 1000
            linarith

/-- C2 witness: a refresh answered with expires-in 3600 gives back the fresh
token with a stored expiry strictly beyond the current time. -/
theorem c2_witness :
    ∃ info,
      (auth.AccessToken
          (fun _ => .ok { RefreshToken := "r2", AccessToken := "a2", ExpiresIn := 3600 })
          1000 (.ok (some { type := "oauth", refresh := "r", access := "", expires := 0 }))).stored
        = some info ∧
      info.access =
        (auth.AccessToken
          (fun _ => .ok { RefreshToken := "r2", AccessToken := "a2", ExpiresIn := 3600 })
          1000 (.ok (some { type := "oauth", refresh := "r", access := "", expires := 0 }))).token ∧
      (1000 : Int) < info.expires :=
  c2_token_expiry_future
    (fun _ => .ok { RefreshToken := "r2", AccessToken := "a2", ExpiresIn := 3600 })
    1000 (.ok (some { type := "oauth", refresh := "r", access := "", expires := 0 }))
    (fun r tr h => by cases h; decide) (by decide)

/-- C5: AuthorizeURL returns as verifier the base64url-no-padding encoding of
the 64 random bytes (86 characters long), sends as code challenge the
base64url-no-padding encoding of the digest of that verifier string, and its
query carries code challenge method S256 and a state parameter equal to the
returned verifier. -/
theorem c5_authorizeURL_pkce (sha256 : List Nat → List Nat) (randBytes : List Nat)
    (mode : String) (hlen : randBytes.length = 64) :
    (auth.AuthorizeURL sha256 randBytes mode).verifier = auth.base64UrlEncode randBytes ∧
    (auth.AuthorizeURL sha256 randBytes mode).verifier.length = 86 ∧
    (auth.AuthorizeURL sha256 randBytes mode).query.lookup "code_challenge_method" =
      some "S256" ∧
    (auth.AuthorizeURL sha256 randBytes mode).query.lookup "state" =
      some (auth.AuthorizeURL sha256 randBytes mode).verifier ∧
    (auth.AuthorizeURL sha256 randBytes mode).query.lookup "code_challenge" =
      some (auth.base64UrlEncode
        (sha256 (auth.strBytes (auth.AuthorizeURL sha256 randBytes mode).verifier))) := by
  refine ⟨rfl, ?_, rfl, rfl, rfl⟩
  show (auth.base64UrlEncodeChars randBytes).length = 86
  rw [base64UrlEncodeChars_length, hlen]

/-- C5 witness: the PKCE properties evaluated on a concrete 64-byte input and
a fixed digest function. -/
theorem c5_witness :
    (auth.AuthorizeURL (fun _ => List.replicate 32 0) (List.replicate 64 1) "max").verifier =
      auth.base64UrlEncode (List.replicate 64 1) ∧
    (auth.AuthorizeURL (fun _ => List.replicate 32 0) (List.replicate 64 1) "max").verifier.length
      = 86 ∧
    (auth.AuthorizeURL (fun _ => List.replicate 32 0) (List.replicate 64 1) "max").query.lookup
      "code_challenge_method" = some "S256" ∧
    (auth.AuthorizeURL (fun _ => List.replicate 32 0) (List.replicate 64 1) "max").query.lookup
      "state" =
      some (auth.AuthorizeURL (fun _ => List.replicate 32 0) (List.replicate 64 1) "max").verifier ∧
    (auth.AuthorizeURL (fun _ => List.replicate 32 0) (List.replicate 64 1) "max").query.lookup
      "code_challenge" =
      some (auth.base64UrlEncode ((fun _ => List.replicate 32 0)
        (auth.strBytes (auth.AuthorizeURL (fun _ => List.replicate 32 0)
          (List.replicate 64 1) "max").verifier))) :=
  c5_authorizeURL_pkce (fun _ => List.replicate 32 0) (List.replicate 64 1) "max" (by decide)

/-- C8: ExchangeCode splits the pasted string on the hash character and fails
with the invalid-code-format error when that yields fewer than two parts; on a
successful token-endpoint response it returns an OauthInfo whose absolute
expiry equals the time of the call plus the returned expires-in seconds, in
milliseconds. -/
theorem c8_exchangeCode (endpoint : auth.TokenRequest → Except String auth.tokenResponse)
    (nowMs : Int) (codeWithState verifier : String) :
    ((strSplitChar codeWithState '#').length < 2 →
      auth.ExchangeCode endpoint nowMs codeWithState verifier =
        .error "invalid code format") ∧
    (∀ p0 p1 rest tr, strSplitChar codeWithState '#' = p0 :: p1 :: rest →
      endpoint { code := p0, state := p1, verifier := verifier } = .ok tr →
      auth.ExchangeCode endpoint nowMs codeWithState verifier =
        .ok { type := "oauth", refresh := tr.RefreshToken, access := tr.AccessToken,
              expires := nowMs + tr.ExpiresIn * 1000 }) := by
  constructor
  · intro h
    unfold auth.ExchangeCode
    rcases hs : strSplitChar codeWithState '#' with _ | ⟨p0, _ | ⟨p1, t⟩⟩
    · rfl
    · rfl
    · rw [hs] at h
      simp only [List.length_cons] at h
      exfalso
      omega
  · intro p0 p1 rest tr hs he
    unfold auth.ExchangeCode
    rw [hs]
    dsimp only
    rw [he]

/-- C8 witness: a pasted string with one hash splits into two parts and
exchanges into a record expiring one hour later; a hashless string fails. -/
theorem c8_witness :
    auth.ExchangeCode (fun _ => .ok { RefreshToken := "R", AccessToken := "A", ExpiresIn := 3600 })
        5 "code#state" "v" =
      .ok { type := "oauth", refresh := "R", access := "A", expires := 5 + 3600 * 1000 } ∧
    auth.ExchangeCode (fun _ => .ok { RefreshToken := "R", AccessToken := "A", ExpiresIn := 3600 })
        5 "nohash" "v" = .error "invalid code format" :=
  ⟨(c8_exchangeCode
      (fun _ => .ok { RefreshToken := "R", AccessToken := "A", ExpiresIn := 3600 })
      5 "code#state" "v").2 "code" "state" []
      { RefreshToken := "R", AccessToken := "A", ExpiresIn := 3600 } (by decide) rfl,
   (c8_exchangeCode
      (fun _ => .ok { RefreshToken := "R", AccessToken := "A", ExpiresIn := 3600 })
      5 "nohash" "v").1 (by decide)⟩

/-- Invariant of the terminal buffer: starting within the bound plus one
chunk, every further sequence of chunks of at most the PTY read size keeps the
buffer within the bound plus one chunk. -/
theorem terminalRun_invariant (chunks : List (List Nat)) (buf : List Nat)
    (hb : buf.length ≤ terminal.maxBufferBytes + shell.ptyReadBufSize)
    (hc : ∀ ch ∈ chunks, ch.length ≤ shell.ptyReadBufSize) :
    (chunks.foldl terminal.terminalUpdate buf).length ≤
      terminal.maxBufferBytes + shell.ptyReadBufSize := by
  induction chunks generalizing buf with
  | nil => simpa using hb
  | cons a t ih =>
    have ha : a.length ≤ shell.ptyReadBufSize := hc a (List.mem_cons_self a t)
    have ht : ∀ ch ∈ t, ch.length ≤ shell.ptyReadBufSize :=
      fun ch h => hc ch (List.mem_cons_of_mem a h)
    rw [List.foldl_cons]
    refine ih _ ?_ ht
    unfold terminal.terminalUpdate
    by_cases h : terminal.maxBufferBytes < buf.length
    · rw [if_pos h]
      simp only [List.length_append, List.length_drop]
      unfold terminal.maxBufferBytes at *
      unfold shell.ptyReadBufSize at *
      omega
    · rw [if_neg h]
      simp only [List.length_append]
      unfold terminal.maxBufferBytes at *
      unfold shell.ptyReadBufSize at *
      omega

/-- C3: the consumer-visible output buffer (the terminal component buffer fed
by the PTY output stream in chunks of at most the 4096-byte read size) always
holds at most the one-million-byte trim threshold plus one chunk, which is
below one mebibyte; whenever the threshold would be exceeded the oldest half
of the buffered bytes is discarded and only then is the new chunk appended:
the kept part is the newest suffix of the old contents in order (the old
buffer is exactly the discarded oldest half followed by the kept half), so
newer bytes are never dropped and bytes are never reordered; below the
threshold the chunk is appended with nothing discarded. -/
theorem c3_terminal_buffer_bound (chunks : List (List Nat)) (buf data : List Nat)
    (hc : ∀ ch ∈ chunks, ch.length ≤ shell.ptyReadBufSize) :
    (terminal.terminalRun chunks).length ≤
      terminal.maxBufferBytes + shell.ptyReadBufSize ∧
    terminal.maxBufferBytes + shell.ptyReadBufSize ≤ 1048576 ∧
    (terminal.maxBufferBytes < buf.length →
      terminal.terminalUpdate buf data = buf.drop (buf.length / 2) ++ data) ∧
    (¬ terminal.maxBufferBytes < buf.length →
      terminal.terminalUpdate buf data = buf ++ data) ∧
    buf.take (buf.length / 2) ++ buf.drop (buf.length / 2) = buf := by
  refine ⟨?_, by norm_num [terminal.maxBufferBytes, shell.ptyReadBufSize], ?_, ?_,
    List.take_append_drop _ _⟩
  · exact terminalRun_invariant chunks [] (by simp) hc
  · intro h
    unfold terminal.terminalUpdate
    rw [if_pos h]
  · intro h
    unfold terminal.terminalUpdate
    rw [if_neg h]

/-- C3 witness: the buffer properties evaluated on concrete chunks and a
concrete buffer. -/
theorem c3_witness :
    (terminal.terminalRun [[1], [2]]).length ≤
      terminal.maxBufferBytes + shell.ptyReadBufSize ∧
    terminal.maxBufferBytes + shell.ptyReadBufSize ≤ 1048576 ∧
    (terminal.maxBufferBytes < ([3, 4] : List Nat).length →
      terminal.terminalUpdate [3, 4] [5] =
        ([3, 4] : List Nat).drop (([3, 4] : List Nat).length / 2) ++ [5]) ∧
    (¬ terminal.maxBufferBytes < ([3, 4] : List Nat).length →
      terminal.terminalUpdate [3, 4] [5] = [3, 4] ++ [5]) ∧
    ([3, 4] : List Nat).take (([3, 4] : List Nat).length / 2) ++
      ([3, 4] : List Nat).drop (([3, 4] : List Nat).length / 2) = [3, 4] :=
  c3_terminal_buffer_bound [[1], [2]] [3, 4] [5] (by decide)

/-- Along any event sequence, the started and PTY-handle fields stay set while
and only while Close has not run. -/
theorem shellRun_flags (evs : List shell.ShellEv) (s : shell.PTYShell) :
    ((evs.foldl shell.shellStep s).started = true ↔
      (s.started = true ∧ shell.ShellEv.close ∉ evs)) ∧
    ((evs.foldl shell.shellStep s).ptmxOpen = true ↔
      (s.ptmxOpen = true ∧ shell.ShellEv.close ∉ evs)) := by
  induction evs generalizing s with
  | nil => simp
  | cons a t ih =>
    cases a with
    | childExit =>
      constructor
      · rw [List.foldl_cons, (ih _).1]
        simp [shell.shellStep]
      · rw [List.foldl_cons, (ih _).2]
        simp [shell.shellStep]
    | close =>
      constructor
      · rw [List.foldl_cons, (ih _).1]
        simp [shell.shellStep]
      · rw [List.foldl_cons, (ih _).2]
        simp [shell.shellStep]

/-- C4 counterexample: after the child process exits (and before Close), Write
does not return the already-closed error: it still attempts the PTY master
write, because the wait goroutine mutates nothing that Write consults. -/
theorem c4_counterexample :
    (shell.shellRun [shell.ShellEv.childExit]).childExited = true ∧
    shell.write (shell.shellRun [shell.ShellEv.childExit]) =
      shell.WriteOutcome.ptmxWrite := by
  decide

/-- C4 amended: over every lifecycle event sequence from creation, Write
returns the already-closed error exactly when Close has been called; a child
exit alone never produces it, so after a mere exit Write still attempts the
PTY master write. -/
theorem c4_write_errs_iff_closed (evs : List shell.ShellEv) :
    shell.write (shell.shellRun evs) = shell.WriteOutcome.errClosedPipe ↔
      shell.ShellEv.close ∈ evs := by
  have h := shellRun_flags evs shell.newPTYShell
  constructor
  · intro hw
    by_contra hm
    have hs : (evs.foldl shell.shellStep shell.newPTYShell).started = true :=
      (h.1).mpr ⟨rfl, hm⟩
    have hp : (evs.foldl shell.shellStep shell.newPTYShell).ptmxOpen = true :=
      (h.2).mpr ⟨rfl, hm⟩
    unfold shell.write shell.shellRun at hw
    rw [hs, hp] at hw
    simp at hw
  · intro hm
    have hs : (evs.foldl shell.shellStep shell.newPTYShell).started = false := by
      cases hb : (evs.foldl shell.shellStep shell.newPTYShell).started with
      | false => rfl
      | true => exact absurd hm ((h.1).mp hb).2
    unfold shell.write shell.shellRun
    rw [hs]
    rfl

/-- Forwarding distributes over a timed-out event: every earlier delivered
event is forwarded unchanged, the timed-out event becomes one warning naming
the topic, and the remaining events are processed as if nothing happened. -/
theorem subscriberRun_append_timedOut {Ev : Type} (topic : String) (e : Ev)
    (rest : List (Ev × app.SendOutcome)) :
    ∀ pre : List (Ev × app.SendOutcome),
      (∀ p ∈ pre, p.2 ≠ app.SendOutcome.cancelled) →
      app.setupSubscriberRun topic (pre ++ (e, app.SendOutcome.timedOut) :: rest) =
        app.setupSubscriberRun topic pre ++
          app.SubAction.dropWarn topic :: app.setupSubscriberRun topic rest
  | [], _ => by simp [app.setupSubscriberRun]
  | (ae, ao) :: t, h => by
    have ht : ∀ p ∈ t, p.2 ≠ app.SendOutcome.cancelled :=
      fun p hp => h p (List.mem_cons_of_mem _ hp)
    have ih := subscriberRun_append_timedOut topic e rest t ht
    cases ao with
    | delivered => simp [app.setupSubscriberRun, ih]
    | timedOut => simp [app.setupSubscriberRun, ih]
    | cancelled =>
      exact absurd rfl (h (ae, app.SendOutcome.cancelled) (List.mem_cons_self _ _))

/-- C6: along any run of one subscriber in which the loop is not cancelled, an
event whose bounded send times out is dropped for that subscriber only: one
warning naming the topic is logged in its place, every earlier event is
forwarded unchanged and every later event is processed exactly as it would be
without the drop; the bound each send waits is the two-second constant. Other
subscribers are separate applications of the same forwarding function, so a
drop in one cannot change the transcript of another. -/
theorem c6_bounded_send_drop {Ev : Type} (topic : String)
    (pre : List (Ev × app.SendOutcome)) (e : Ev)
    (rest : List (Ev × app.SendOutcome))
    (h : ∀ p ∈ pre, p.2 ≠ app.SendOutcome.cancelled) :
    app.setupSubscriberRun topic (pre ++ (e, app.SendOutcome.timedOut) :: rest) =
      app.setupSubscriberRun topic pre ++
        app.SubAction.dropWarn topic :: app.setupSubscriberRun topic rest ∧
    app.subscriberSendTimeout = 2000 :=
  ⟨subscriberRun_append_timedOut topic e rest pre h, rfl⟩

/-- C6 witness: with one delivered event before and after, the timed-out event
in the middle turns into exactly one drop warning for the topic. -/
theorem c6_witness :
    app.setupSubscriberRun "mcp"
        ([((1 : Nat), app.SendOutcome.delivered)] ++
          (2, app.SendOutcome.timedOut) :: [(3, app.SendOutcome.delivered)]) =
      app.setupSubscriberRun "mcp" [((1 : Nat), app.SendOutcome.delivered)] ++
        app.SubAction.dropWarn "mcp" ::
          app.setupSubscriberRun "mcp" [((3 : Nat), app.SendOutcome.delivered)] ∧
    app.subscriberSendTimeout = 2000 :=
  c6_bounded_send_drop "mcp" [((1 : Nat), app.SendOutcome.delivered)] 2
    [(3, app.SendOutcome.delivered)] (by decide)

/-- C1 witness: a concrete transient failure (unexpected EOF) with a failing
restart produces exactly one restart attempt and the composed error. -/
theorem c1_witness :
    (agent.runTool (fun _ => .ok ()) (some 0) (fun _ => .error "down")
        (fun _ => .error "unexpected EOF") "srv" "x").retryRestarts = 1 ∧
    (agent.runTool (fun _ => .ok ()) (some 0) (fun _ => .error "down")
        (fun _ => .error "unexpected EOF") "srv" "x").calls ≤ 2 ∧
    (∀ re, (fun _ => .error "down" : Nat → Except String agent.Client) 0 = .error re →
      (agent.runTool (fun _ => .ok ()) (some 0) (fun _ => .error "down")
          (fun _ => .error "unexpected EOF") "srv" "x").resp =
        .textError ("unexpected EOF" ++ "; restart failed: " ++ re)) ∧
    (∀ parse2 avail2 restarts2 call2 name2 input2,
      (agent.runTool parse2 avail2 restarts2 call2 name2 input2).retryRestarts ≤ 1) :=
  c1_transient_exactly_one_restart (fun _ => .ok ()) (some 0)
    (fun _ => .error "down") (fun _ => .error "unexpected EOF") "srv" "x" 0
    "unexpected EOF" rfl rfl rfl (by decide)

end Crush
